import Mathlib

/-!
Shallow embedding of the ISAF strategic-analysis model (src/isaf.py).

Numeric values are idealised as exact rationals (operator stage) and reals
(temporal stage, where the decay factor exp(-0.1*t) enters).  NumPy's
IEEE-754 special values matter for the error-handling claims: division by
zero on NumPy data does not raise, it produces inf / -inf / nan with a
runtime warning.  We model that with the extended-value type `Np`:
a finite value, positive infinity, negative infinity, or nan.  Python
exceptions that do abort a call (KeyError from the framework_data dict,
IndexError from indexing the temporal_coupling array) are modelled with
`Except Err`.  NumPy integer indexing wraps negative indices (a[-1] is the
last element); `npIndex` reproduces that.  Element-wise NumPy binary
operations are modelled for equal-length operands, with a shape-mismatch
error otherwise (NumPy's length-1 broadcasting is not exercised by the
model's documented parallel-array contract and is not modelled).
-/

/-- Extended numeric value: a finite number, one of the two IEEE infinities,
or nan.  Mirrors the value domain of NumPy float arithmetic, with finite
values idealised as members of an exact ordered field. -/
inductive Np (α : Type) where
  | fin (x : α)
  | inf
  | ninf
  | nan
deriving DecidableEq

/-- Exceptions that abort a call in src/isaf.py: KeyError from the
framework_data dict lookup, IndexError from array indexing, and the
shape-mismatch error NumPy raises on unequal-length element-wise operands. -/
inductive Err where
  | keyError (key : String)
  | indexOutOfRange
  | shapeMismatch
deriving DecidableEq

namespace Np

variable {α : Type} [LinearOrderedField α]

/-- IEEE addition on extended values: nan propagates, inf + (-inf) = nan. -/
def add : Np α → Np α → Np α
  | nan, _ => nan
  | _, nan => nan
  | inf, ninf => nan
  | ninf, inf => nan
  | inf, _ => inf
  | _, inf => inf
  | ninf, _ => ninf
  | _, ninf => ninf
  | fin x, fin y => fin (x + y)

/-- IEEE negation on extended values. -/
def neg : Np α → Np α
  | fin x => fin (-x)
  | inf => ninf
  | ninf => inf
  | nan => nan

/-- IEEE subtraction on extended values. -/
def sub (a b : Np α) : Np α := add a (neg b)

/-- IEEE multiplication on extended values: nan propagates, inf * 0 = nan,
infinities multiply by sign. -/
def mul : Np α → Np α → Np α
  | nan, _ => nan
  | _, nan => nan
  | fin x, fin y => fin (x * y)
  | inf, inf => inf
  | inf, ninf => ninf
  | ninf, inf => ninf
  | ninf, ninf => inf
  | inf, fin y => if 0 < y then inf else if y < 0 then ninf else nan
  | fin x, inf => if 0 < x then inf else if x < 0 then ninf else nan
  | ninf, fin y => if 0 < y then ninf else if y < 0 then inf else nan
  | fin x, ninf => if 0 < x then ninf else if x < 0 then inf else nan

/-- IEEE division on extended values.  Division of a finite value by zero
yields nan (for 0/0) or a signed infinity — it does not raise, exactly as
NumPy behaves (with a runtime warning). -/
def div : Np α → Np α → Np α
  | nan, _ => nan
  | _, nan => nan
  | fin x, fin y =>
      if y = 0 then (if x = 0 then nan else if 0 < x then inf else ninf)
      else fin (x / y)
  | fin _, inf => fin 0
  | fin _, ninf => fin 0
  | inf, fin y => if y < 0 then ninf else inf
  | ninf, fin y => if y < 0 then inf else ninf
  | inf, _ => nan
  | ninf, _ => nan

/-- IEEE absolute value on extended values. -/
def npabs : Np α → Np α
  | fin x => fin |x|
  | inf => inf
  | ninf => inf
  | nan => nan

/-- Model of np.sum over a one-dimensional array: left fold of addition
starting from 0 (so the empty sum is the finite value 0, as in NumPy). -/
def sum (l : List (Np α)) : Np α := l.foldl add (fin 0)

/-- Model of np.mean: the sum divided by the length.  On an empty array this
is 0/0 = nan, matching NumPy (which warns and returns nan). -/
def mean (l : List (Np α)) : Np α := div (sum l) (fin (l.length : α))

/-- True exactly on finite values. -/
def isFinite : Np α → Bool
  | fin _ => true
  | _ => false

/-- Embeds the rational stage of the computation into the real stage. -/
def toReal : Np ℚ → Np ℝ
  | fin x => fin (x : ℝ)
  | inf => inf
  | ninf => ninf
  | nan => nan

/-- Model of np.sqrt on an extended real: nan on negative finite input. -/
noncomputable def sqrtR : Np ℝ → Np ℝ
  | fin x => if x < 0 then nan else fin (Real.sqrt x)
  | inf => inf
  | ninf => nan
  | nan => nan

end Np

instance {ε α : Type} [DecidableEq ε] [DecidableEq α] :
    DecidableEq (Except ε α) := fun x y =>
  match x, y with
  | .ok a, .ok b =>
      if h : a = b then isTrue (by rw [h])
      else isFalse (fun hc => h (Except.ok.inj hc))
  | .error a, .error b =>
      if h : a = b then isTrue (by rw [h])
      else isFalse (fun hc => h (Except.error.inj hc))
  | .ok _, .error _ => isFalse (fun hc => Except.noConfusion hc)
  | .error _, .ok _ => isFalse (fun hc => Except.noConfusion hc)

/-- Sequential effectful map over an index list, short-circuiting on the
first exception — the evaluation order of a Python generator consumed by
sum, or of a list comprehension. -/
def exceptMap {β : Type} (f : ℕ → Except Err β) : List ℕ → Except Err (List β)
  | [] => .ok []
  | i :: rest => do
      let x ← f i
      let xs ← exceptMap f rest
      pure (x :: xs)

/-- Indexing a list, raising IndexError past the end (Python sequence
indexing by a natural number). -/
def lget {α : Type} (l : List α) (i : ℕ) : Except Err α :=
  match l[i]? with
  | some x => .ok x
  | none => .error .indexOutOfRange

/-- Two-dimensional indexing W[i, j]. -/
def lget2 {α : Type} (W : List (List α)) (i j : ℕ) : Except Err α := do
  let row ← lget W i
  lget row j

/-- Element-wise combination of two NumPy arrays of equal length; a NumPy
shape error on unequal lengths. -/
def zipSame {α β γ : Type} (f : α → β → γ) : List α → List β → Except Err (List γ)
  | [], [] => .ok []
  | x :: xs, y :: ys => do
      let rest ← zipSame f xs ys
      .ok (f x y :: rest)
  | _, _ => .error .shapeMismatch

/-- True exactly when a call returned a value rather than raising. -/
def exceptOk {ε α : Type} : Except ε α → Bool
  | .ok _ => true
  | .error _ => false

/-- NumPy integer indexing into a one-dimensional array of length T: an
index t with 0 <= t < T is used as is, a negative index with -T <= t < 0
wraps to t + T, anything else raises IndexError. -/
def npIndex (T : ℕ) (t : ℤ) : Except Err ℤ :=
  if 0 ≤ t ∧ t < (T : ℤ) then .ok t
  else if -(T : ℤ) ≤ t ∧ t < 0 then .ok (t + (T : ℤ))
  else .error .indexOutOfRange

/-- The framework_data dict of an ISAF instance: at most one stored input
set per framework, keyed by the framework's name in the Python source.
PESTEL factors are opaque labels; all numeric inputs are idealised
rationals. -/
structure FrameworkData where
  pestel : Option (List String × List ℚ × List ℚ × List ℚ)
  five_forces : Option (List ℚ × List (List ℚ))
  swot : Option (List ℚ × List ℚ × List (List ℚ))
  bcg : Option (List ℚ × List ℚ)
  ansoff : Option (List ℚ × List ℚ)
  blue_ocean : Option (List ℚ × List ℚ)
deriving DecidableEq

/-- The empty framework_data dict created by ISAF.__init__. -/
def FrameworkData.empty : FrameworkData :=
  ⟨none, none, none, none, none, none⟩

/-- An ISAF model instance.  temporal_coupling is the derived array
np.exp(-0.1 * np.arange(time_horizon)); it is determined by time_horizon,
so we keep time_horizon and compute the decay factor where it is read.
coupling_matrices is the dict of coupling coefficients keyed by ordered
pairs of framework names (never written by any method in the source, but
externally assignable, so modelled as data). -/
structure ISAF where
  time_horizon : ℕ
  framework_data : FrameworkData
  coupling_matrices : List ((String × String) × ℚ)
deriving DecidableEq

/-- Lookup in the coupling_matrices dict. -/
def lookupPair : List ((String × String) × ℚ) → String × String → Option ℚ
  | [], _ => none
  | (k, v) :: rest, q => if k = q then some v else lookupPair rest q

/-- Model of self.coupling_matrices.get((a, b), 0.3). -/
def couplingGet (m : ISAF) (a b : String) : ℚ :=
  match lookupPair m.coupling_matrices (a, b) with
  | some c => c
  | none => 3 / 10

/-- Model of ISAF.pestel_operator: sum over i in range(len(factors)) of
weights[i] * probabilities[i] * impacts[i]; KeyError when no PESTEL input
set was stored, IndexError when a parallel list is shorter than factors. -/
def pestel_operator (m : ISAF) : Except Err (Np ℚ) :=
  match m.framework_data.pestel with
  | none => .error (.keyError "pestel")
  | some (factors, weights, probabilities, impacts) => do
      let terms ← exceptMap (fun i => do
        let w ← lget weights i
        let p ← lget probabilities i
        let imp ← lget impacts i
        pure (w * p * imp)) (List.range factors.length)
      pure (Np.fin terms.sum)

/-- Model of ISAF.five_forces_operator:
1 - sum_i forces[i] * (sum over j in range(M), j smaller or larger than i,
of W[i][j]) / M, computed with NumPy semantics (so M = 0 gives 0/0 = nan). -/
def five_forces_operator (m : ISAF) : Except Err (Np ℚ) :=
  match m.framework_data.five_forces with
  | none => .error (.keyError "five_forces")
  | some (forces, W) => do
      let rows ← exceptMap (fun i => do
        let fi ← lget forces i
        let cols ← exceptMap (fun j => lget2 W i j)
          ((List.range forces.length).filter (fun j => j ≠ i))
        pure (fi * cols.sum)) (List.range forces.length)
      pure (Np.sub (Np.fin 1) (Np.div (Np.fin rows.sum) (Np.fin (forces.length : ℚ))))

/-- Model of ISAF.swot_operator: np.sum(tensor) / (len(internal) *
len(external-factors)).  With NumPy semantics the division by a zero
denominator yields nan or a signed infinity, it does not raise. -/
def swot_operator (m : ISAF) : Except Err (Np ℚ) :=
  match m.framework_data.swot with
  | none => .error (.keyError "swot")
  | some (inFac, exFac, tensor) =>
      pure (Np.div (Np.fin ((tensor.map List.sum).sum))
        (Np.fin ((inFac.length * exFac.length : ℕ) : ℚ)))

/-- Model of ISAF.bcg_operator: np.mean(market_share * growth_rate). -/
def bcg_operator (m : ISAF) : Except Err (Np ℚ) :=
  match m.framework_data.bcg with
  | none => .error (.keyError "bcg")
  | some (market_share, growth_rate) => do
      let prods ← zipSame (fun a b => Np.fin (a * b)) market_share growth_rate
      pure (Np.mean prods)

/-- Model of ISAF.ansoff_operator: np.mean(success - risk). -/
def ansoff_operator (m : ISAF) : Except Err (Np ℚ) :=
  match m.framework_data.ansoff with
  | none => .error (.keyError "ansoff")
  | some (success, risk) => do
      let diffs ← zipSame (fun a b => Np.fin (a - b)) success risk
      pure (Np.mean diffs)

/-- Model of ISAF.blue_ocean_operator: np.mean(differentiation / cost).
A zero cost entry gives an IEEE infinity or nan element, not an exception. -/
def blue_ocean_operator (m : ISAF) : Except Err (Np ℚ) :=
  match m.framework_data.blue_ocean with
  | none => .error (.keyError "blue_ocean")
  | some (differentiation, cost) => do
      let quots ← zipSame (fun d c => Np.div (Np.fin d) (Np.fin c)) differentiation cost
      pure (Np.mean quots)

/-- The coupling_effect expression of unified_hyperfunctional_equation,
given the six operator scores: the five adjacent pairwise products, each
weighted by the coupling coefficient for that ordered pair (default 0.3),
summed left to right as in the source. -/
def coupling_effect (m : ISAF) (p f s b a o : Np ℚ) : Np ℚ :=
  Np.add (Np.add (Np.add (Np.add
    (Np.mul (Np.mul (Np.fin (couplingGet m "pestel" "five_forces")) p) f)
    (Np.mul (Np.mul (Np.fin (couplingGet m "five_forces" "swot")) f) s))
    (Np.mul (Np.mul (Np.fin (couplingGet m "swot" "bcg")) s) b))
    (Np.mul (Np.mul (Np.fin (couplingGet m "bcg" "ansoff")) b) a))
    (Np.mul (Np.mul (Np.fin (couplingGet m "ansoff" "blue_ocean")) a) o)

/-- The strategic_state expression: the six scores summed left to right,
plus the coupling effect. -/
def strategic_state (m : ISAF) (p f s b a o : Np ℚ) : Np ℚ :=
  Np.add (Np.add (Np.add (Np.add (Np.add (Np.add p f) s) b) a) o)
    (coupling_effect m p f s b a o)

/-- Lines 62-75 of unified_hyperfunctional_equation: run the six operators
in source order and form the strategic state (the time step plays no part
yet). -/
def stateExcept (m : ISAF) : Except Err (Np ℚ) := do
  let p ← pestel_operator m
  let f ← five_forces_operator m
  let s ← swot_operator m
  let b ← bcg_operator m
  let a ← ansoff_operator m
  let o ← blue_ocean_operator m
  pure (strategic_state m p f s b a o)

/-- Model of ISAF.unified_hyperfunctional_equation: runs the six operators
in source order (so a KeyError from an operator precedes any IndexError),
forms the strategic state, then scales it by
temporal_coupling[t] = exp(-0.1 * i) where i is the (possibly wrapped)
NumPy index resolved from t. -/
noncomputable def unified_hyperfunctional_equation (m : ISAF) (t : ℤ) : Except Err (Np ℝ) := do
  let st ← stateExcept m
  let i ← npIndex m.time_horizon t
  pure (Np.mul st.toReal (Np.fin (Real.exp (-(1 / 10) * (i : ℝ)))))

/-- Model of the objective closure defined inside ISAF.optimize_strategy.
Before computing anything it overwrites the stored Five Forces input set
with the candidate vector (keeping the stored influence matrix), so it is a
state transformer: it returns the mutated model together with the negated
sum of the unified equation over the whole horizon.  Reading the influence
matrix raises KeyError when no Five Forces input set is stored. -/
noncomputable def objective (m : ISAF) (decisions : List ℚ) :
    ISAF × Except Err (Np ℝ) :=
  match m.framework_data.five_forces with
  | none => (m, .error (.keyError "five_forces"))
  | some (_, W) =>
      let m2 : ISAF :=
        { m with framework_data :=
            { m.framework_data with five_forces := some (decisions, W) } }
      (m2, do
        let vals ← exceptMap
          (fun t => unified_hyperfunctional_equation m2 (t : ℤ))
          (List.range m.time_horizon)
        pure (Np.neg (Np.sum vals)))

/-- Result record of the external minimizer: the model state left behind by
its last objective evaluation, the returned point, and the reported
objective value at that point. -/
structure SolverResult where
  model : ISAF
  x : List ℚ
  val : Np ℝ

/-- Type of the external bounded minimizer: it receives the objective (a
state transformer on the model), the starting model state, the initial
guess and the box bounds, and either returns a result or propagates an
exception raised by an objective evaluation. -/
def Solver : Type :=
  (ISAF → List ℚ → ISAF × Except Err (Np ℝ)) → ISAF → List ℚ →
    List (ℚ × ℚ) → Except Err SolverResult

/-- Modelled from the spec: scipy.optimize.minimize with method SLSQP and
box bounds is external library code, absent from this repository.  Its
documented contract, as the spec relies on it: the returned point has the
dimension of the initial guess and satisfies the box bounds, and the
reported objective value is the value of the objective evaluated at the
returned point (the objective value is independent of the entry state's
Five Forces vector, which the objective itself overwrites). -/
def SolverOk (solver : Solver) : Prop :=
  ∀ obj m init bnds r, solver obj m init bnds = .ok r →
    r.x.length = init.length ∧
    ((∀ i (hb : i < bnds.length), (bnds.get ⟨i, hb⟩).1 ≤ (bnds.get ⟨i, hb⟩).2) →
      ∀ i (h : i < r.x.length) (hb : i < bnds.length),
        (bnds.get ⟨i, hb⟩).1 ≤ r.x.get ⟨i, h⟩ ∧
        r.x.get ⟨i, h⟩ ≤ (bnds.get ⟨i, hb⟩).2) ∧
    (obj m r.x).2 = .ok r.val

/-- Model of ISAF.optimize_strategy: reads the stored Five Forces vector
for its length M (KeyError if absent), builds the uniform 0.5 initial
guess and the [0, 1] box bounds, runs the external solver on the objective,
and returns the final model state, the solver's point, and the negated
(so maximised) objective value. -/
noncomputable def optimize_strategy (solver : Solver) (m : ISAF) :
    Except Err (ISAF × List ℚ × Np ℝ) :=
  match m.framework_data.five_forces with
  | none => .error (.keyError "five_forces")
  | some (forces, _) => do
      let M := forces.length
      let initial := List.replicate M ((1 : ℚ) / 2)
      let bnds := List.replicate M ((0 : ℚ), (1 : ℚ))
      let r ← solver objective m initial bnds
      pure (r.model, r.x, Np.neg r.val)

/-- The three validation metrics returned by ISAF.validate_model, under the
keys RMSE, MAE and R_squared of the returned dict. -/
structure Metrics where
  rmse : Np ℝ
  mae : Np ℝ
  r_squared : Np ℝ

/-- Model of ISAF.validate_model: computes the predicted series
[unified(0), ..., unified(T-1)], then RMSE, MAE and R squared with NumPy
semantics — in particular a zero total variance of the actual outcomes
makes the R squared division 0/0 or positive/0, yielding nan or a signed
infinity rather than raising. -/
noncomputable def validate_model (m : ISAF) (actual : List ℝ) :
    Except Err Metrics := do
  let predicted ← exceptMap
    (fun t => unified_hyperfunctional_equation m (t : ℤ))
    (List.range m.time_horizon)
  let diffs ← zipSame Np.sub (actual.map Np.fin) predicted
  let sqErr := diffs.map (fun d => Np.mul d d)
  let actualMean := Np.mean (actual.map Np.fin)
  let devs := (actual.map Np.fin).map (fun x => Np.sub x actualMean)
  pure { rmse := Np.sqrtR (Np.mean sqErr)
         mae := Np.mean (diffs.map Np.npabs)
         r_squared := Np.sub (Np.fin 1)
           (Np.div (Np.sum sqErr) (Np.sum (devs.map (fun d => Np.mul d d)))) }

/-! ### Concrete instances -/

/-- The literal end-to-end scenario of the spec (section 8): PESTEL
factors A, B with weights 0.6, 0.4, probabilities 0.5, 0.5, impacts 10,
20; Five Forces forces 0.2, 0.3 with W = [[0,1],[1,0]]; SWOT internal
[1,1], external [1], tensor [[2],[2]]; BCG 0.5, 0.2; Ansoff 0.7, 0.1;
Blue Ocean 0.8, 0.4; time horizon 3; no coupling coefficients set. -/
def mScenario : ISAF :=
  { time_horizon := 3
    framework_data :=
      { pestel := some (["A", "B"], [3/5, 2/5], [1/2, 1/2], [10, 20])
        five_forces := some ([1/5, 3/10], [[0, 1], [1, 0]])
        swot := some ([1, 1], [1], [[2], [2]])
        bcg := some ([1/2], [1/5])
        ansoff := some ([7/10], [1/10])
        blue_ocean := some ([4/5], [2/5]) }
    coupling_matrices := [] }

/-- A small fully populated instance with time horizon 1: operator scores
0, 1, 1, 1, 1, 1, coupling effect 6/5, strategic state 31/5. -/
def mSimple : ISAF :=
  { time_horizon := 1
    framework_data :=
      { pestel := some ([], [], [], [])
        five_forces := some ([1/2], [[0]])
        swot := some ([1], [1], [[1]])
        bcg := some ([1], [1])
        ansoff := some ([1], [0])
        blue_ocean := some ([1], [1]) }
    coupling_matrices := [] }

/-- The same instance with time horizon 2. -/
def mSimple2 : ISAF := { mSimple with time_horizon := 2 }

/-- A freshly constructed instance: no framework input set stored. -/
def mEmpty : ISAF := ⟨3, FrameworkData.empty, []⟩

/-- An instance whose SWOT input set has empty internal and external
factor lists (and an empty tensor). -/
def mSwotEmpty : ISAF :=
  ⟨3, { FrameworkData.empty with swot := some ([], [], []) }, []⟩

/-- An instance whose Blue Ocean input set has a zero cost entry. -/
def mCostZero : ISAF :=
  ⟨3, { FrameworkData.empty with blue_ocean := some ([1], [0]) }, []⟩

/-- A specimen solver satisfying the documented minimizer contract: it
clips the initial guess into the box bounds, evaluates the objective once
there and reports that evaluation, propagating any exception it raises. -/
noncomputable def clipSolver : Solver := fun obj m init bnds =>
  let x := (List.range init.length).map (fun i =>
    match bnds[i]? with
    | some lh => max lh.1 (min lh.2 (init.getD i 0))
    | none => init.getD i 0)
  match (obj m x).2 with
  | .ok v => .ok ⟨(obj m x).1, x, v⟩
  | .error e => .error e

/-! ### Supporting lemmas -/

@[simp] theorem exbind_ok {α β : Type} (x : α) (f : α → Except Err β) :
    (Except.ok x >>= f : Except Err β) = f x := rfl

@[simp] theorem exbind_error {α β : Type} (e : Err) (f : α → Except Err β) :
    (Except.error e >>= f : Except Err β) = Except.error e := rfl

@[simp] theorem expure {α : Type} (x : α) : (pure x : Except Err α) = Except.ok x := rfl

@[simp] theorem exmap_ok {α β : Type} (x : α) (f : α → β) :
    (Except.ok x : Except Err α).map f = Except.ok (f x) := rfl

@[simp] theorem exmap_error {α β : Type} (e : Err) (f : α → β) :
    (Except.error e : Except Err α).map f = Except.error e := rfl

namespace Np

variable {α : Type} [LinearOrderedField α]

@[simp] theorem add_fin (x y : α) : add (fin x) (fin y) = fin (x + y) := rfl

@[simp] theorem sub_fin (x y : α) : sub (fin x) (fin y) = fin (x - y) := by
  simp [sub, neg, add, sub_eq_add_neg]

@[simp] theorem mul_fin (x y : α) : mul (fin x) (fin y) = fin (x * y) := rfl

theorem div_fin (x : α) {y : α} (h : y ≠ 0) : div (fin x) (fin y) = fin (x / y) := by
  simp [div, h]

theorem mul_fin_one (v : Np α) : mul v (fin 1) = v := by
  cases v <;> simp [mul]

theorem negneg (v : Np α) : neg (neg v) = v := by
  cases v <;> simp [neg]

theorem mul_fin_mul {a b : α} (v : Np α) (ha : 0 < a) (hb : 0 < b) :
    mul v (fin (a * b)) = mul (mul v (fin a)) (fin b) := by
  cases v <;> simp [mul, ha, hb, mul_pos ha hb, mul_assoc]

theorem add_nonfin_left {x : Np α} (y : Np α) (h : x.isFinite = false) :
    (add x y).isFinite = false := by
  cases x <;> cases y <;> simp_all [add, isFinite]

theorem add_nonfin_right (x : Np α) {y : Np α} (h : y.isFinite = false) :
    (add x y).isFinite = false := by
  cases x <;> cases y <;> simp_all [add, isFinite]

theorem neg_nonfin {x : Np α} (h : x.isFinite = false) : (neg x).isFinite = false := by
  cases x <;> simp_all [neg, isFinite]

theorem sub_nonfin_right (x : Np α) {y : Np α} (h : y.isFinite = false) :
    (sub x y).isFinite = false :=
  add_nonfin_right x (neg_nonfin h)

theorem div_fin_nonfin {x : Np α} (y : α) (h : x.isFinite = false) :
    (div x (fin y)).isFinite = false := by
  cases x with
  | fin z => simp [isFinite] at h
  | inf =>
      simp only [div]
      split_ifs <;> rfl
  | ninf =>
      simp only [div]
      split_ifs <;> rfl
  | nan => rfl

theorem div_zero_nonfin (x : α) : (div (fin x) (fin (0 : α))).isFinite = false := by
  simp only [div, if_pos rfl]
  split_ifs <;> rfl

theorem foldl_add_nonfin (l : List (Np α)) {acc : Np α} (h : acc.isFinite = false) :
    (l.foldl add acc).isFinite = false := by
  induction l generalizing acc with
  | nil => simpa using h
  | cons x t ih => exact ih (add_nonfin_left x h)

theorem foldl_add_mem_nonfin {x : Np α} (h : x.isFinite = false) :
    ∀ (l : List (Np α)) (acc : Np α), x ∈ l → (l.foldl add acc).isFinite = false := by
  intro l
  induction l with
  | nil => intro acc hx; cases hx
  | cons y t ih =>
      intro acc hx
      rcases List.mem_cons.mp hx with h1 | h2
      · subst h1
        exact foldl_add_nonfin t (add_nonfin_right acc h)
      · exact ih _ h2

theorem sum_nonfin {l : List (Np α)} {x : Np α} (hx : x ∈ l) (h : x.isFinite = false) :
    (sum l).isFinite = false := foldl_add_mem_nonfin h l (fin 0) hx

theorem mean_nonfin {l : List (Np α)} {x : Np α} (hx : x ∈ l) (h : x.isFinite = false) :
    (mean l).isFinite = false := div_fin_nonfin _ (sum_nonfin hx h)

theorem foldl_add_map_fin (l : List α) :
    ∀ x : α, (l.map fin).foldl add (fin x) = fin (x + l.sum) := by
  induction l with
  | nil => intro x; simp
  | cons y t ih => intro x; simpa [add_assoc] using ih (x + y)

theorem sum_map_fin (l : List α) : sum (l.map fin) = fin l.sum := by
  simpa using foldl_add_map_fin l 0

theorem foldl_add_zeros {l : List (Np α)} (h : ∀ x ∈ l, x = fin 0) :
    ∀ c : α, l.foldl add (fin c) = fin c := by
  induction l with
  | nil => intro c; rfl
  | cons y t ih =>
      intro c
      have hy : y = fin 0 := h y (by simp)
      simp only [List.foldl_cons, hy, add_fin, add_zero]
      exact ih (fun x hx => h x (by simp [hx])) c

theorem sum_eq_zero {l : List (Np α)} (h : ∀ x ∈ l, x = fin 0) : sum l = fin 0 :=
  foldl_add_zeros h 0

theorem mean_map_fin {l : List α} (h : l ≠ []) :
    mean (l.map fin) = fin (l.sum / (l.length : α)) := by
  have hlen : ((l.length : ℕ) : α) ≠ 0 :=
    Nat.cast_ne_zero.mpr (fun h0 => h (List.length_eq_zero.mp h0))
  simp [mean, sum_map_fin, div_fin _ hlen]

@[simp] theorem toReal_fin (q : ℚ) : (fin q).toReal = fin ((q : ℚ) : ℝ) := rfl

theorem toReal_nonfin {x : Np ℚ} (h : x.isFinite = false) :
    x.toReal.isFinite = false := by
  cases x <;> simp_all [toReal, isFinite]

end Np

theorem exceptMap_congr_ok {β : Type} {f : ℕ → Except Err β} {g : ℕ → β} :
    ∀ {idx : List ℕ}, (∀ i ∈ idx, f i = .ok (g i)) →
      exceptMap f idx = .ok (idx.map g) := by
  intro idx
  induction idx with
  | nil => intro _; rfl
  | cons i t ih =>
      intro h
      simp [exceptMap, h i (by simp), ih (fun j hj => h j (by simp [hj]))]

theorem exceptMap_ok_length {β : Type} {f : ℕ → Except Err β} :
    ∀ {idx : List ℕ} {ys : List β}, exceptMap f idx = .ok ys → ys.length = idx.length := by
  intro idx
  induction idx with
  | nil =>
      intro ys h
      cases h
      rfl
  | cons i t ih =>
      intro ys h
      cases hfi : f i with
      | error e => simp [exceptMap, hfi] at h
      | ok x =>
          cases hrest : exceptMap f t with
          | error e => simp [exceptMap, hfi, hrest] at h
          | ok xs =>
              simp [exceptMap, hfi, hrest] at h
              subst h
              simp [ih hrest]

theorem zipSame_eq {α β γ : Type} (f : α → β → γ) :
    ∀ (xs : List α) (ys : List β), xs.length = ys.length →
      zipSame f xs ys = .ok (List.zipWith f xs ys) := by
  intro xs
  induction xs with
  | nil =>
      intro ys h
      cases ys with
      | nil => rfl
      | cons y u => simp at h
  | cons x t ih =>
      intro ys h
      cases ys with
      | nil => simp at h
      | cons y u => simp [zipSame, ih u (by simpa using h)]

theorem lget_eq {α : Type} {l : List α} {i : ℕ} (h : i < l.length) (d : α) :
    lget l i = .ok (l.getD i d) := by
  simp [lget, List.getElem?_eq_getElem h, List.getD_eq_getElem l d h]

theorem Np.div_zero_all_nonfin {α : Type} [LinearOrderedField α] (v : Np α) :
    (Np.div v (Np.fin (0 : α))).isFinite = false := by
  cases v with
  | fin x => exact Np.div_zero_nonfin x
  | inf => exact Np.div_fin_nonfin 0 rfl
  | ninf => exact Np.div_fin_nonfin 0 rfl
  | nan => rfl

theorem pestel_mScenario : pestel_operator mScenario = .ok (Np.fin 7) := by
  norm_num [pestel_operator, mScenario, exceptMap, lget, show List.range 2 = [0, 1] from rfl]

theorem five_forces_mScenario : five_forces_operator mScenario = .ok (Np.fin (3/4)) := by
  norm_num [five_forces_operator, mScenario, exceptMap, lget, lget2, Np.sub, Np.neg, Np.add,
    Np.div, show List.range 2 = [0, 1] from rfl]

theorem swot_mScenario : swot_operator mScenario = .ok (Np.fin 2) := by
  norm_num [swot_operator, mScenario, Np.div]

theorem bcg_mScenario : bcg_operator mScenario = .ok (Np.fin (1/10)) := by
  norm_num [bcg_operator, mScenario, zipSame, Np.mean, Np.sum, Np.add, Np.div]

theorem ansoff_mScenario : ansoff_operator mScenario = .ok (Np.fin (3/5)) := by
  norm_num [ansoff_operator, mScenario, zipSame, Np.mean, Np.sum, Np.add, Np.div]

theorem blue_ocean_mScenario : blue_ocean_operator mScenario = .ok (Np.fin 2) := by
  norm_num [blue_ocean_operator, mScenario, zipSame, Np.mean, Np.sum, Np.add, Np.div]

theorem state_mScenario :
    strategic_state mScenario (.fin 7) (.fin (3/4)) (.fin 2) (.fin (1/10)) (.fin (3/5)) (.fin 2)
      = .fin (14913/1000) := by
  norm_num [strategic_state, coupling_effect, couplingGet, lookupPair, mScenario, Np.add, Np.mul]

theorem stateExcept_mScenario : stateExcept mScenario = .ok (Np.fin (14913/1000)) := by
  rw [stateExcept, pestel_mScenario]
  simp only [exbind_ok, five_forces_mScenario, swot_mScenario, bcg_mScenario,
    ansoff_mScenario, blue_ocean_mScenario, expure, state_mScenario]

theorem stateExcept_simple (m : ISAF)
    (hfd : m.framework_data = mSimple.framework_data)
    (hcm : m.coupling_matrices = []) :
    stateExcept m = .ok (Np.fin (31/5)) := by
  simp only [stateExcept, pestel_operator, five_forces_operator, swot_operator,
    bcg_operator, ansoff_operator, blue_ocean_operator, hfd, mSimple]
  norm_num [exceptMap, lget, lget2, zipSame, Np.mean, Np.sum, Np.add, Np.div, Np.sub,
    Np.neg, Np.mul, strategic_state, coupling_effect, couplingGet, lookupPair, hcm,
    show List.range 1 = [0] from rfl]

theorem unified_simple (m : ISAF)
    (hfd : m.framework_data = mSimple.framework_data)
    (hcm : m.coupling_matrices = []) (t : ℤ)
    (h0 : 0 ≤ t) (ht : t < (m.time_horizon : ℤ)) :
    unified_hyperfunctional_equation m t =
      .ok (Np.fin (((31 : ℝ)/5) * Real.exp (-(1/10) * (t : ℝ)))) := by
  simp only [unified_hyperfunctional_equation, stateExcept_simple m hfd hcm, exbind_ok,
    npIndex, if_pos (And.intro h0 ht), expure, Np.toReal_fin, Np.mul_fin]
  norm_num

/-- Claim C1: whenever the six operators return values p, f, s, b, a, o and
0 <= t < T, the unified equation returns the strategic state — the six
scores plus the coupling term with per-pair coefficients defaulting to
0.3 — times exp(-0.1 t); and on the literal section-8 scenario inputs with
time horizon 3, unified_hyperfunctional_equation 0 equals the
hand-evaluated 14.913 (decay at step 0 being 1). -/
theorem c1_unified_equation_formula :
    (∀ (m : ISAF) (p f s b a o : Np ℚ) (t : ℤ),
        pestel_operator m = .ok p →
        five_forces_operator m = .ok f →
        swot_operator m = .ok s →
        bcg_operator m = .ok b →
        ansoff_operator m = .ok a →
        blue_ocean_operator m = .ok o →
        0 ≤ t → t < (m.time_horizon : ℤ) →
        unified_hyperfunctional_equation m t =
          .ok (Np.mul (strategic_state m p f s b a o).toReal
            (Np.fin (Real.exp (-(1 / 10) * (t : ℝ)))))) ∧
    unified_hyperfunctional_equation mScenario 0 = .ok (Np.fin ((14913 : ℝ) / 1000)) := by
  constructor
  · intro m p f s b a o t hp hf hs hb ha ho ht1 ht2
    rw [unified_hyperfunctional_equation, stateExcept, hp]
    simp only [exbind_ok, hf, hs, hb, ha, ho, expure]
    rw [npIndex, if_pos (And.intro ht1 ht2)]
    simp
  · rw [unified_hyperfunctional_equation, stateExcept_mScenario]
    simp only [exbind_ok]
    rw [npIndex]
    norm_num [mScenario, Np.toReal, Np.mul, Real.exp_zero]

theorem c1_witness :
    unified_hyperfunctional_equation mScenario 1 =
      .ok (Np.mul (strategic_state mScenario (.fin 7) (.fin (3/4)) (.fin 2) (.fin (1/10))
            (.fin (3/5)) (.fin 2)).toReal
          (Np.fin (Real.exp (-(1 / 10) * ((1 : ℤ) : ℝ))))) :=
  c1_unified_equation_formula.1 mScenario _ _ _ _ _ _ 1 pestel_mScenario five_forces_mScenario
    swot_mScenario bcg_mScenario ansoff_mScenario blue_ocean_mScenario (by norm_num)
    (by decide)

/-- Claim C2 counterexample: with time horizon 3, the call at t = -1 does
not fail — NumPy wraps the negative index, so a value is returned. -/
theorem c2_counterexample :
    exceptOk (unified_hyperfunctional_equation mScenario (-1)) = true := by
  rw [unified_hyperfunctional_equation, stateExcept_mScenario]
  simp only [exbind_ok]
  rw [npIndex]
  norm_num [mScenario, exceptOk]

/-- Claim C2 amended: for a model whose operators succeed, the unified
equation raises IndexError exactly for t >= T or t < -T; a negative t with
-T <= t < 0 returns the value of step t + T (NumPy index wrapping), not an
error. -/
theorem c2_amended_index (m : ISAF) (st : Np ℚ) (hst : stateExcept m = .ok st) :
    (∀ t : ℤ, ((m.time_horizon : ℤ) ≤ t ∨ t < -(m.time_horizon : ℤ)) →
      unified_hyperfunctional_equation m t = .error .indexOutOfRange) ∧
    (∀ t : ℤ, -(m.time_horizon : ℤ) ≤ t → t < 0 →
      unified_hyperfunctional_equation m t =
        unified_hyperfunctional_equation m (t + (m.time_horizon : ℤ))) := by
  constructor
  · intro t ht
    rw [unified_hyperfunctional_equation, hst]
    simp only [exbind_ok]
    rw [npIndex, if_neg (by omega), if_neg (by omega)]
    rfl
  · intro t h1 h2
    rw [unified_hyperfunctional_equation, unified_hyperfunctional_equation, hst]
    simp only [exbind_ok]
    rw [npIndex, npIndex, if_neg (by omega), if_pos (And.intro h1 h2),
      if_pos (by constructor <;> omega)]

theorem c2_witness :
    unified_hyperfunctional_equation mScenario 5 = .error .indexOutOfRange ∧
    unified_hyperfunctional_equation mScenario (-2) =
      unified_hyperfunctional_equation mScenario (-2 + (mScenario.time_horizon : ℤ)) :=
  ⟨(c2_amended_index mScenario _ stateExcept_mScenario).1 5 (by decide),
   (c2_amended_index mScenario _ stateExcept_mScenario).2 (-2) (by decide) (by decide)⟩

/-- Claim C5: each of the six operators, invoked on a model whose
framework input set was never stored, fails with the KeyError for its
framework's dict key (the MissingInputError of the design) and returns no
value; the operators are read-only functions of the model, so the stored
state is unchanged by the failed call. -/
theorem c5_missing_input (m : ISAF) :
    (m.framework_data.pestel = none →
      pestel_operator m = .error (.keyError "pestel")) ∧
    (m.framework_data.five_forces = none →
      five_forces_operator m = .error (.keyError "five_forces")) ∧
    (m.framework_data.swot = none →
      swot_operator m = .error (.keyError "swot")) ∧
    (m.framework_data.bcg = none →
      bcg_operator m = .error (.keyError "bcg")) ∧
    (m.framework_data.ansoff = none →
      ansoff_operator m = .error (.keyError "ansoff")) ∧
    (m.framework_data.blue_ocean = none →
      blue_ocean_operator m = .error (.keyError "blue_ocean")) := by
  refine ⟨?_, ?_, ?_, ?_, ?_, ?_⟩ <;> intro h
  · simp [pestel_operator, h]
  · simp [five_forces_operator, h]
  · simp [swot_operator, h]
  · simp [bcg_operator, h]
  · simp [ansoff_operator, h]
  · simp [blue_ocean_operator, h]

theorem c5_witness :
    pestel_operator mEmpty = .error (.keyError "pestel") ∧
    five_forces_operator mEmpty = .error (.keyError "five_forces") ∧
    swot_operator mEmpty = .error (.keyError "swot") ∧
    bcg_operator mEmpty = .error (.keyError "bcg") ∧
    ansoff_operator mEmpty = .error (.keyError "ansoff") ∧
    blue_ocean_operator mEmpty = .error (.keyError "blue_ocean") := by
  have h := c5_missing_input mEmpty
  exact ⟨h.1 rfl, h.2.1 rfl, h.2.2.1 rfl, h.2.2.2.1 rfl, h.2.2.2.2.1 rfl, h.2.2.2.2.2 rfl⟩

/-- Claim C6: one evaluation of the optimizer's objective on a candidate
vector overwrites the stored Five Forces forces with exactly that
candidate while keeping the stored influence matrix W, leaves the other
five frameworks' input sets and the coupling map unchanged, and keeps
time_horizon (hence the derived temporal decay vector) intact. -/
theorem c6_objective_frame (m : ISAF) (d F : List ℚ) (W : List (List ℚ))
    (h : m.framework_data.five_forces = some (F, W)) :
    (objective m d).1.framework_data.five_forces = some (d, W) ∧
    (objective m d).1.framework_data.pestel = m.framework_data.pestel ∧
    (objective m d).1.framework_data.swot = m.framework_data.swot ∧
    (objective m d).1.framework_data.bcg = m.framework_data.bcg ∧
    (objective m d).1.framework_data.ansoff = m.framework_data.ansoff ∧
    (objective m d).1.framework_data.blue_ocean = m.framework_data.blue_ocean ∧
    (objective m d).1.coupling_matrices = m.coupling_matrices ∧
    (objective m d).1.time_horizon = m.time_horizon := by
  simp [objective, h]

theorem c6_witness :
    (objective mSimple [1/3]).1.framework_data.five_forces = some ([1/3], [[0]]) ∧
    (objective mSimple [1/3]).1.framework_data.pestel = mSimple.framework_data.pestel ∧
    (objective mSimple [1/3]).1.framework_data.swot = mSimple.framework_data.swot ∧
    (objective mSimple [1/3]).1.framework_data.bcg = mSimple.framework_data.bcg ∧
    (objective mSimple [1/3]).1.framework_data.ansoff = mSimple.framework_data.ansoff ∧
    (objective mSimple [1/3]).1.framework_data.blue_ocean = mSimple.framework_data.blue_ocean ∧
    (objective mSimple [1/3]).1.coupling_matrices = mSimple.coupling_matrices ∧
    (objective mSimple [1/3]).1.time_horizon = mSimple.time_horizon :=
  c6_objective_frame mSimple [1/3] [1/2] [[0]] rfl

theorem zipWith_div_zero_mem : ∀ (d c : List ℚ), d.length = c.length → (0 : ℚ) ∈ c →
    ∃ x ∈ List.zipWith (fun dd cc => Np.div (Np.fin dd) (Np.fin cc)) d c,
      x.isFinite = false := by
  intro d
  induction d with
  | nil =>
      intro c h hm
      cases c with
      | nil => cases hm
      | cons b u => simp at h
  | cons a t ih =>
      intro c h hm
      cases c with
      | nil => cases hm
      | cons b u =>
          rcases List.mem_cons.mp hm with hb | hu
          · refine ⟨Np.div (Np.fin a) (Np.fin b), by simp, ?_⟩
            rw [← hb]
            exact Np.div_zero_all_nonfin _
          · obtain ⟨x, hx, hxf⟩ := ih u (by simpa using h) hu
            exact ⟨x, by simp [hx], hxf⟩

/-- Claim C3 amended: neither call raises.  SWOT with empty internal and
external factor lists returns a non-finite value (nan when the tensor sum
is 0), and Blue Ocean with a zero cost entry returns a non-finite mean —
NumPy division by zero warns and yields nan or a signed infinity instead
of raising. -/
theorem c3_amended_no_raise :
    (∀ (m : ISAF) (tensor : List (List ℚ)),
        m.framework_data.swot = some ([], [], tensor) →
        ∃ v, swot_operator m = .ok v ∧ v.isFinite = false) ∧
    (∀ (m : ISAF) (d c : List ℚ),
        m.framework_data.blue_ocean = some (d, c) →
        d.length = c.length → (0 : ℚ) ∈ c →
        ∃ v, blue_ocean_operator m = .ok v ∧ v.isFinite = false) := by
  constructor
  · intro m tensor h
    refine ⟨Np.div (Np.fin ((tensor.map List.sum).sum)) (Np.fin 0), ?_, ?_⟩
    · simp [swot_operator, h]
    · exact Np.div_zero_all_nonfin _
  · intro m d c h hlen hmem
    obtain ⟨x, hx, hxf⟩ := zipWith_div_zero_mem d c hlen hmem
    refine ⟨Np.mean (List.zipWith (fun dd cc => Np.div (Np.fin dd) (Np.fin cc)) d c), ?_, ?_⟩
    · simp [blue_ocean_operator, h, zipSame_eq _ d c hlen]
    · exact Np.mean_nonfin hx hxf

/-- Claim C3 counterexample: with both SWOT factor lists empty the
operator returns nan, and with a zero cost entry Blue Ocean returns
positive infinity — both return values, neither raises. -/
theorem c3_counterexample :
    swot_operator mSwotEmpty = .ok Np.nan ∧
    blue_ocean_operator mCostZero = .ok Np.inf := by
  constructor <;> decide

theorem c3_witness :
    (∃ v, swot_operator mSwotEmpty = .ok v ∧ v.isFinite = false) ∧
    (∃ v, blue_ocean_operator mCostZero = .ok v ∧ v.isFinite = false) :=
  ⟨c3_amended_no_raise.1 mSwotEmpty [] rfl,
   c3_amended_no_raise.2 mCostZero [1] [0] rfl rfl (by decide)⟩

theorem validate_model_eq (m : ISAF) (actual : List ℝ) (preds : List (Np ℝ))
    (hpred : exceptMap (fun t => unified_hyperfunctional_equation m (t : ℤ))
      (List.range m.time_horizon) = .ok preds)
    (hlen : (actual.map Np.fin).length = preds.length) :
    validate_model m actual = .ok
      { rmse := Np.sqrtR (Np.mean ((List.zipWith Np.sub (actual.map Np.fin) preds).map
          (fun dd => Np.mul dd dd)))
        mae := Np.mean ((List.zipWith Np.sub (actual.map Np.fin) preds).map Np.npabs)
        r_squared := Np.sub (Np.fin 1)
          (Np.div
            (Np.sum ((List.zipWith Np.sub (actual.map Np.fin) preds).map
              (fun dd => Np.mul dd dd)))
            (Np.sum (((actual.map Np.fin).map
                (fun x => Np.sub x (Np.mean (actual.map Np.fin)))).map
              (fun dd => Np.mul dd dd)))) } := by
  rw [validate_model, hpred]
  simp only [exbind_ok]
  rw [zipSame_eq Np.sub _ _ hlen]
  simp only [exbind_ok, expure]

/-- Claim C4 amended: on an all-identical outcome sequence of length T the
validator does not raise; it returns the three metrics with a non-finite
R squared (the zero-variance denominator gives nan or a signed infinity
under NumPy semantics). -/
theorem c4_amended_zero_variance (m : ISAF) (c : ℝ) (preds : List (Np ℝ))
    (hpred : exceptMap (fun t => unified_hyperfunctional_equation m (t : ℤ))
      (List.range m.time_horizon) = .ok preds) :
    ∃ met, validate_model m (List.replicate m.time_horizon c) = .ok met ∧
      met.r_squared.isFinite = false := by
  have hlenp : preds.length = m.time_horizon := by
    simpa using exceptMap_ok_length hpred
  have hlen : ((List.replicate m.time_horizon c).map Np.fin).length = preds.length := by
    simp [hlenp]
  have hv := validate_model_eq m (List.replicate m.time_horizon c) preds hpred hlen
  have hden : Np.sum ((((List.replicate m.time_horizon c).map Np.fin).map
      (fun x => Np.sub x (Np.mean ((List.replicate m.time_horizon c).map Np.fin)))).map
      (fun dd => Np.mul dd dd)) = Np.fin 0 := by
    rcases Nat.eq_zero_or_pos m.time_horizon with hT | hT
    · simp [hT, Np.sum]
    · have hne : List.replicate m.time_horizon c ≠ [] := by
        simp only [ne_eq, List.replicate_eq_nil_iff]
        omega
      have hmean : Np.mean ((List.replicate m.time_horizon c).map Np.fin) = Np.fin c := by
        rw [Np.mean_map_fin hne]
        have hT0 : ((m.time_horizon : ℕ) : ℝ) ≠ 0 := Nat.cast_ne_zero.mpr (Nat.pos_iff_ne_zero.mp hT)
        simp [List.sum_replicate, nsmul_eq_mul, mul_div_assoc, mul_div_cancel_left₀ c hT0]
      apply Np.sum_eq_zero
      intro x hx
      obtain ⟨y, hy, rfl⟩ := List.mem_map.mp hx
      obtain ⟨z, hz, rfl⟩ := List.mem_map.mp hy
      obtain ⟨w, hw, rfl⟩ := List.mem_map.mp hz
      have hwc : w = c := List.eq_of_mem_replicate hw
      subst hwc
      rw [hmean]
      simp
  refine ⟨_, hv, ?_⟩
  dsimp only
  rw [hden]
  exact Np.sub_nonfin_right _ (Np.div_zero_all_nonfin _)

theorem unified_mSimple_zero :
    unified_hyperfunctional_equation mSimple 0 = .ok (Np.fin ((31 : ℝ)/5)) := by
  have h := unified_simple mSimple rfl rfl 0 le_rfl (by decide)
  simpa using h

theorem predict_mSimple :
    exceptMap (fun t => unified_hyperfunctional_equation mSimple (t : ℤ))
      (List.range mSimple.time_horizon) = .ok [Np.fin ((31 : ℝ)/5)] := by
  simp [show List.range mSimple.time_horizon = [0] from rfl, exceptMap,
    unified_mSimple_zero]

/-- C4 counterexample -/
theorem c4_counterexample :
    validate_model mSimple [(31 : ℝ)/5] = .ok ⟨Np.fin 0, Np.fin 0, Np.nan⟩ := by
  rw [validate_model_eq mSimple [(31 : ℝ)/5] [Np.fin ((31 : ℝ)/5)] predict_mSimple (by simp)]
  norm_num [List.zipWith, Np.mean, Np.sum, Np.div, Np.sub, Np.neg, Np.add, Np.mul,
    Np.npabs, Np.sqrtR, Real.sqrt_zero]

theorem c4_witness :
    ∃ met, validate_model mSimple (List.replicate mSimple.time_horizon ((31 : ℝ)/5)) =
      .ok met ∧ met.r_squared.isFinite = false :=
  c4_amended_zero_variance mSimple ((31 : ℝ)/5) [Np.fin ((31 : ℝ)/5)] predict_mSimple

/-- Claim C10: for 0 <= t < T the unified equation factors through time
only via the decay: unified(t) equals unified(0) scaled by exp(-0.1 t),
and consecutive in-horizon predictions are related by the fixed ratio
exp(-0.1). -/
theorem c10_time_factorisation (m : ISAF) (t : ℤ) (h0 : 0 ≤ t)
    (ht : t < (m.time_horizon : ℤ)) :
    unified_hyperfunctional_equation m t =
      (unified_hyperfunctional_equation m 0).map
        (fun v => Np.mul v (Np.fin (Real.exp (-(1 / 10) * (t : ℝ))))) ∧
    (t + 1 < (m.time_horizon : ℤ) →
      unified_hyperfunctional_equation m (t + 1) =
        (unified_hyperfunctional_equation m t).map
          (fun v => Np.mul v (Np.fin (Real.exp (-(1 / 10)))))) := by
  cases hst : stateExcept m with
  | error e =>
      constructor
      · rw [unified_hyperfunctional_equation, unified_hyperfunctional_equation, hst]
        simp
      · intro ht1
        rw [unified_hyperfunctional_equation, unified_hyperfunctional_equation, hst]
        simp
  | ok st =>
      constructor
      · rw [unified_hyperfunctional_equation, unified_hyperfunctional_equation, hst]
        simp only [exbind_ok]
        rw [npIndex, npIndex, if_pos (And.intro h0 ht),
          if_pos (And.intro le_rfl (by omega))]
        simp only [expure, exbind_ok, exmap_ok]
        rw [show -(1 / 10 : ℝ) * ((0 : ℤ) : ℝ) = 0 by push_cast; ring, Real.exp_zero,
          Np.mul_fin_one]
      · intro ht1
        rw [unified_hyperfunctional_equation, unified_hyperfunctional_equation, hst]
        simp only [exbind_ok]
        rw [npIndex, npIndex, if_pos (And.intro (by omega) ht1),
          if_pos (And.intro h0 (by omega))]
        simp only [expure, exbind_ok, exmap_ok]
        rw [show -(1 / 10 : ℝ) * ((t + 1 : ℤ) : ℝ) =
          -(1 / 10) * (t : ℝ) + -(1 / 10) by push_cast; ring]
        rw [Real.exp_add]
        rw [Np.mul_fin_mul _ (Real.exp_pos _) (Real.exp_pos _)]

theorem c10_witness :
    (unified_hyperfunctional_equation mScenario 1 =
      (unified_hyperfunctional_equation mScenario 0).map
        (fun v => Np.mul v (Np.fin (Real.exp (-(1 / 10) * ((1 : ℤ) : ℝ)))))) ∧
    ((1 : ℤ) + 1 < (mScenario.time_horizon : ℤ) →
      unified_hyperfunctional_equation mScenario (1 + 1) =
        (unified_hyperfunctional_equation mScenario 1).map
          (fun v => Np.mul v (Np.fin (Real.exp (-(1 / 10)))))) :=
  c10_time_factorisation mScenario 1 (by decide) (by decide)

theorem clipSolver_ok : SolverOk clipSolver := by
  intro obj m init bnds r hr
  simp only [clipSolver] at hr
  split at hr
  case h_2 => cases hr
  case h_1 v hobj =>
    cases hr
    refine ⟨by simp, ?_, ?_⟩
    · intro hwf i h hb
      simp only [List.get_eq_getElem, List.getElem_map, List.getElem_range,
        List.getElem?_eq_getElem hb]
      constructor
      · exact le_max_left _ _
      · exact max_le (hwf i hb) (min_le_left _ _)
    · exact hobj

/-- Claim C7: for any solver satisfying the documented SLSQP contract
(box-feasible point of the right dimension, reported value equal to the
objective at that point), optimize_strategy returns a Five-Forces vector
of length M with every element in [0, 1], and the returned scalar is the
non-negated objective: the negation of the objective value at the
returned point, i.e. the sum of the unified equation over the horizon
with the returned vector substituted. -/
theorem c7_optimize_feasible (solver : Solver) (hsv : SolverOk solver)
    (m mf : ISAF) (x : List ℚ) (v : Np ℝ) (F : List ℚ) (W : List (List ℚ))
    (hff : m.framework_data.five_forces = some (F, W))
    (hopt : optimize_strategy solver m = .ok (mf, x, v)) :
    x.length = F.length ∧
    (∀ q ∈ x, 0 ≤ q ∧ q ≤ 1) ∧
    (objective m x).2 = .ok (Np.neg v) ∧
    (∀ vals, exceptMap (fun t => unified_hyperfunctional_equation
        { m with framework_data :=
          { m.framework_data with five_forces := some (x, W) } } (t : ℤ))
        (List.range m.time_horizon) = .ok vals →
      v = Np.sum vals) := by
  simp only [optimize_strategy, hff] at hopt
  cases hr : solver objective m (List.replicate F.length ((1 : ℚ) / 2))
      (List.replicate F.length ((0 : ℚ), (1 : ℚ))) with
  | error e => rw [hr] at hopt; cases hopt
  | ok r =>
      rw [hr] at hopt
      simp only [exbind_ok, expure, Except.ok.injEq, Prod.mk.injEq] at hopt
      obtain ⟨hm, hx, hv⟩ := hopt
      subst hx
      subst hv
      obtain ⟨hlen, hbnd, hval⟩ := hsv _ _ _ _ _ hr
      have hlen2 : r.x.length = F.length := by simpa using hlen
      refine ⟨hlen2, ?_, ?_, ?_⟩
      · intro q hq
        obtain ⟨⟨i, hi⟩, hgq⟩ := List.mem_iff_get.mp hq
        have hb : i < (List.replicate F.length ((0 : ℚ), (1 : ℚ))).length := by
          simpa using hlen2 ▸ hi
        have hbq := hbnd (fun j hj => by simp [List.get_replicate]) i hi hb
        rw [List.get_replicate] at hbq
        rw [← hgq]
        exact hbq
      · rw [Np.negneg]
        exact hval
      · intro vals hvals
        simp only [objective, hff, hvals, exbind_ok, expure] at hval
        have hval2 : r.val = Np.neg (Np.sum vals) := by
          exact (Except.ok.inj hval).symm
        rw [hval2, Np.negneg]

theorem objective_mSimple_val :
    (objective mSimple [(1 : ℚ)/2]).2 = .ok (Np.neg (Np.fin ((31 : ℝ)/5))) := by
  simp only [objective, show mSimple.framework_data.five_forces =
    some ([(1 : ℚ)/2], [[(0 : ℚ)]]) from rfl]
  simp only [show List.range mSimple.time_horizon = [0] from rfl, exceptMap,
    Nat.cast_zero]
  have hm2 := unified_simple
      { time_horizon := mSimple.time_horizon
        framework_data :=
          { pestel := mSimple.framework_data.pestel
            five_forces := some ([(1 : ℚ)/2], [[(0 : ℚ)]])
            swot := mSimple.framework_data.swot
            bcg := mSimple.framework_data.bcg
            ansoff := mSimple.framework_data.ansoff
            blue_ocean := mSimple.framework_data.blue_ocean }
        coupling_matrices := mSimple.coupling_matrices }
      rfl rfl 0 le_rfl (by decide)
  rw [hm2]
  simp only [exbind_ok, expure]
  norm_num [Np.sum, Np.neg, Np.add, Real.exp_zero]

theorem optimize_clip_mSimple :
    optimize_strategy clipSolver mSimple =
      .ok ((objective mSimple [(1 : ℚ)/2]).1, [(1 : ℚ)/2], Np.fin ((31 : ℝ)/5)) := by
  simp only [optimize_strategy, show mSimple.framework_data.five_forces =
    some ([(1 : ℚ)/2], [[(0 : ℚ)]]) from rfl]
  simp only [clipSolver, List.length_cons, List.length_nil]
  have hx : (List.range (List.replicate (0 + 1) ((1 : ℚ) / 2)).length).map (fun i =>
      match (List.replicate (0 + 1) ((0 : ℚ), (1 : ℚ)))[i]? with
      | some lh => max lh.1 (min lh.2 ((List.replicate (0 + 1) ((1 : ℚ) / 2)).getD i 0))
      | none => (List.replicate (0 + 1) ((1 : ℚ) / 2)).getD i 0) = [(1 : ℚ)/2] := by
    norm_num [List.replicate, List.getD, show List.range 1 = [0] from rfl,
      max_def, min_def]
  rw [hx, objective_mSimple_val]
  simp [Np.negneg]

theorem c7_witness :
    ([(1 : ℚ)/2] : List ℚ).length = ([(1 : ℚ)/2] : List ℚ).length ∧
    (∀ q ∈ ([(1 : ℚ)/2] : List ℚ), 0 ≤ q ∧ q ≤ 1) ∧
    (objective mSimple [(1 : ℚ)/2]).2 = .ok (Np.neg (Np.fin ((31 : ℝ)/5))) ∧
    (∀ vals, exceptMap (fun t => unified_hyperfunctional_equation
        { mSimple with framework_data :=
          { mSimple.framework_data with five_forces := some ([(1 : ℚ)/2], [[(0 : ℚ)]]) } }
        (t : ℤ))
        (List.range mSimple.time_horizon) = .ok vals →
      Np.fin ((31 : ℝ)/5) = Np.sum vals) :=
  c7_optimize_feasible clipSolver clipSolver_ok mSimple
    ((objective mSimple [(1 : ℚ)/2]).1) [(1 : ℚ)/2] (Np.fin ((31 : ℝ)/5))
    [(1 : ℚ)/2] [[(0 : ℚ)]] rfl optimize_clip_mSimple

theorem zipWith_sub_self_fin {α : Type} [LinearOrderedField α] (l : List α) :
    List.zipWith Np.sub (l.map Np.fin) (l.map Np.fin) = l.map (fun y => Np.fin 0) := by
  induction l with
  | nil => rfl
  | cons a t ih =>
      simp only [List.map_cons, List.zipWith_cons_cons, ih, Np.sub_fin, sub_self]

theorem Np.sum_map_fin_comp {α : Type} [LinearOrderedField α] (l : List α) (g : α → α) :
    Np.sum (l.map (fun y => Np.fin (g y))) = Np.fin ((l.map g).sum) := by
  rw [show (fun y => Np.fin (g y)) = Np.fin ∘ g from rfl, ← List.map_map, Np.sum_map_fin]

/-- Claim C8 amended: if the actual-outcomes sequence equals the model's
own predicted sequence and that sequence has nonzero variance, then
validate_model returns RMSE = 0, MAE = 0 and R squared = 1.  (Without the
variance condition the R squared division is 0/0 = nan, see the
counterexample.) -/
theorem c8_validator_round_trip (m : ISAF) (actual : List ℝ)
    (hpred : exceptMap (fun t => unified_hyperfunctional_equation m (t : ℤ))
      (List.range m.time_horizon) = .ok (actual.map Np.fin))
    (hvar : (actual.map (fun y => (y - actual.sum / (actual.length : ℝ)) *
        (y - actual.sum / (actual.length : ℝ)))).sum ≠ 0) :
    validate_model m actual = .ok ⟨Np.fin 0, Np.fin 0, Np.fin 1⟩ := by
  have hne : actual ≠ [] := by
    rintro rfl
    simp at hvar
  have hlen0 : ((actual.length : ℕ) : ℝ) ≠ 0 :=
    Nat.cast_ne_zero.mpr (fun h0 => hne (List.length_eq_zero.mp h0))
  rw [validate_model_eq m actual (actual.map Np.fin) hpred rfl]
  rw [zipWith_sub_self_fin]
  have hzeros : ∀ x ∈ (actual.map (fun y => Np.fin (0 : ℝ))).map (fun dd => Np.mul dd dd),
      x = Np.fin 0 := by
    intro x hx
    simp only [List.map_map, List.mem_map, Function.comp] at hx
    obtain ⟨y, hy, rfl⟩ := hx
    simp
  have hnum : Np.sum ((actual.map (fun y => Np.fin (0 : ℝ))).map (fun dd => Np.mul dd dd)) =
      Np.fin 0 := Np.sum_eq_zero hzeros
  have hmeansq : Np.mean ((actual.map (fun y => Np.fin (0 : ℝ))).map
      (fun dd => Np.mul dd dd)) = Np.fin 0 := by
    rw [Np.mean, hnum, Np.div_fin _ (by simpa using hlen0)]
    simp
  have habs : Np.mean ((actual.map (fun y => Np.fin (0 : ℝ))).map Np.npabs) = Np.fin 0 := by
    have hz2 : ∀ x ∈ (actual.map (fun y => Np.fin (0 : ℝ))).map Np.npabs, x = Np.fin 0 := by
      intro x hx
      simp only [List.map_map, List.mem_map, Function.comp] at hx
      obtain ⟨y, hy, rfl⟩ := hx
      simp [Np.npabs]
    rw [Np.mean, Np.sum_eq_zero hz2, Np.div_fin _ (by simpa using hlen0)]
    simp
  have hmean : Np.mean (actual.map Np.fin) =
      Np.fin (actual.sum / (actual.length : ℝ)) := Np.mean_map_fin hne
  have hden : Np.sum (((actual.map Np.fin).map
      (fun x => Np.sub x (Np.mean (actual.map Np.fin)))).map (fun dd => Np.mul dd dd)) =
      Np.fin ((actual.map (fun y => (y - actual.sum / (actual.length : ℝ)) *
        (y - actual.sum / (actual.length : ℝ)))).sum) := by
    rw [hmean, List.map_map, List.map_map]
    have hfun : (((fun dd => Np.mul dd dd) ∘
        (fun x => Np.sub x (Np.fin (actual.sum / (actual.length : ℝ))))) ∘ Np.fin) =
        fun y => Np.fin ((y - actual.sum / (actual.length : ℝ)) *
          (y - actual.sum / (actual.length : ℝ))) := by
      funext y
      simp [Function.comp]
    rw [hfun, Np.sum_map_fin_comp]
  rw [hmeansq, habs, hnum, hden, Np.div_fin _ hvar]
  norm_num [Np.sqrtR, Real.sqrt_zero]

theorem validate_mSimple_nan :
    validate_model mSimple [(31 : ℝ)/5] = .ok ⟨Np.fin 0, Np.fin 0, Np.nan⟩ := by
  rw [validate_model_eq mSimple [(31 : ℝ)/5] [Np.fin ((31 : ℝ)/5)] predict_mSimple (by simp)]
  norm_num [List.zipWith, Np.mean, Np.sum, Np.div, Np.sub, Np.neg, Np.add, Np.mul,
    Np.npabs, Np.sqrtR, Real.sqrt_zero]

theorem c8_counterexample :
    exceptMap (fun t => unified_hyperfunctional_equation mSimple (t : ℤ))
      (List.range mSimple.time_horizon) = .ok ([(31 : ℝ)/5].map Np.fin) ∧
    validate_model mSimple [(31 : ℝ)/5] = .ok ⟨Np.fin 0, Np.fin 0, Np.nan⟩ ∧
    (Np.nan : Np ℝ) ≠ Np.fin 1 :=
  ⟨by simpa using predict_mSimple, validate_mSimple_nan, fun h => Np.noConfusion h⟩

theorem unified_mSimple2_zero :
    unified_hyperfunctional_equation mSimple2 (0 : ℤ) = .ok (Np.fin ((31 : ℝ)/5)) := by
  have h := unified_simple mSimple2 rfl rfl (0 : ℤ) (by norm_num) (by decide)
  simpa using h

theorem unified_mSimple2_one :
    unified_hyperfunctional_equation mSimple2 (1 : ℤ) =
      .ok (Np.fin ((31 : ℝ)/5 * Real.exp (-(1/10)))) := by
  have h := unified_simple mSimple2 rfl rfl (1 : ℤ) (by norm_num) (by decide)
  simpa using h

theorem c8_witness :
    validate_model mSimple2 [(31 : ℝ)/5, (31 : ℝ)/5 * Real.exp (-(1/10))] =
      .ok ⟨Np.fin 0, Np.fin 0, Np.fin 1⟩ := by
  have hpred : exceptMap (fun t => unified_hyperfunctional_equation mSimple2 (t : ℤ))
      (List.range mSimple2.time_horizon) =
      .ok (([(31 : ℝ)/5, (31 : ℝ)/5 * Real.exp (-(1/10))]).map Np.fin) := by
    simp [show List.range mSimple2.time_horizon = [0, 1] from rfl, exceptMap,
      unified_mSimple2_zero, unified_mSimple2_one]
  have he : Real.exp (-(1/10 : ℝ)) < 1 := by
    have h := Real.exp_lt_exp.mpr (show -(1/10 : ℝ) < 0 by norm_num)
    simpa [Real.exp_zero] using h
  refine c8_validator_round_trip mSimple2 _ hpred ?_
  simp only [List.map_cons, List.map_nil, List.sum_cons, List.sum_nil,
    List.length_cons, List.length_nil]
  intro h
  have h2 : (1 - Real.exp (-(1/10 : ℝ)))^2 = 0 := by nlinarith [h]
  have h3 : Real.exp (-(1/10 : ℝ)) = 1 := by nlinarith [h2]
  rw [h3] at he
  exact lt_irrefl 1 he

theorem pestel_eq_sum (m : ISAF) (factors : List String) (w p imp : List ℚ)
    (h : m.framework_data.pestel = some (factors, w, p, imp))
    (hw : factors.length ≤ w.length) (hp : factors.length ≤ p.length)
    (hi : factors.length ≤ imp.length) :
    pestel_operator m = .ok (Np.fin (((List.range factors.length).map
      (fun i => w.getD i 0 * p.getD i 0 * imp.getD i 0)).sum)) := by
  simp only [pestel_operator, h]
  rw [exceptMap_congr_ok (g := fun i => w.getD i 0 * p.getD i 0 * imp.getD i 0) ?hg]
  · rfl
  case hg =>
    intro i hmem
    have hilt : i < factors.length := List.mem_range.mp hmem
    rw [lget_eq (lt_of_lt_of_le hilt hw) 0]
    simp only [exbind_ok]
    rw [lget_eq (lt_of_lt_of_le hilt hp) 0]
    simp only [exbind_ok]
    rw [lget_eq (lt_of_lt_of_le hilt hi) 0]
    simp only [exbind_ok, expure]

/-- Claim C9: with a stored PESTEL input set of equal-length parallel
lists, replacing impacts[i] by any larger value, when weight[i] times
probability[i] is non-negative, never decreases the value returned by
pestel_operator. -/
theorem c9_pestel_monotone (m : ISAF) (factors : List String) (w p imp : List ℚ)
    (i : ℕ) (imp2 : ℚ)
    (h : m.framework_data.pestel = some (factors, w, p, imp))
    (hw : w.length = factors.length) (hp : p.length = factors.length)
    (hi : imp.length = factors.length)
    (hwp : 0 ≤ w.getD i 0 * p.getD i 0)
    (hle : imp.getD i 0 ≤ imp2) :
    ∃ v v2 : ℚ,
      pestel_operator m = .ok (Np.fin v) ∧
      pestel_operator { m with framework_data :=
        { m.framework_data with pestel := some (factors, w, p, imp.set i imp2) } } =
        .ok (Np.fin v2) ∧
      v ≤ v2 := by
  refine ⟨_, _, pestel_eq_sum m factors w p imp h hw.ge hp.ge hi.ge,
    pestel_eq_sum _ factors w p (imp.set i imp2) rfl hw.ge hp.ge
      (by simpa using hi.ge), ?_⟩
  apply List.sum_le_sum
  intro j hj
  have hjlt : j < factors.length := List.mem_range.mp hj
  rcases eq_or_ne i j with hji | hji
  · subst hji
    have hiimp : i < imp.length := by omega
    rw [show (imp.set i imp2).getD i 0 = imp2 by
      rw [List.getD_eq_getElem _ _ (by simpa using hiimp)]
      simp [List.getElem_set]]
    exact mul_le_mul_of_nonneg_left hle hwp
  · rw [show (imp.set i imp2).getD j 0 = imp.getD j 0 by
      simp [List.getD, List.getElem?_set_ne hji]]

theorem c9_witness :
    ∃ v v2 : ℚ,
      pestel_operator mScenario = .ok (Np.fin v) ∧
      pestel_operator { mScenario with framework_data :=
        { mScenario.framework_data with
          pestel := some (["A", "B"], [3/5, 2/5], [1/2, 1/2],
            ([10, 20] : List ℚ).set 0 11) } } =
        .ok (Np.fin v2) ∧
      v ≤ v2 :=
  c9_pestel_monotone mScenario ["A", "B"] [3/5, 2/5] [1/2, 1/2] [10, 20] 0 11 rfl rfl rfl
    rfl (by norm_num [List.getD]) (by norm_num [List.getD])
